import Mathlib

/-!
# Manual signaling coordinator of `save-to-webm/jsfiddle/demo.js`

A shallow embedding of the demo script: the page and the peer connection are an
explicit `World`, every handler of the script is a function on it, and every
call the script makes into the browser is recorded in a trace.

The browser functions the script calls (`atob`, `btoa`, `JSON.parse`,
`JSON.stringify`, the peer connection) are not part of the script; they are
modelled here after their standards and each such definition says so.
-/

namespace SaveToWebm

set_option maxRecDepth 8192

/-! ## Strings and errors -/

/-- A JavaScript string, as the sequence of its UTF-16 code units. -/
abbrev JSString := List Nat

/-- The UTF-16 code units of one Unicode scalar value. -/
def utf16 (c : Char) : List Nat :=
  if c.toNat < 65536 then [c.toNat]
  else [55296 + (c.toNat - 65536) / 1024, 56320 + (c.toNat - 65536) % 1024]

/-- The UTF-16 code units of a list of characters. -/
def utf16s : List Char → JSString
  | [] => []
  | c :: cs => utf16 c ++ utf16s cs

/-- The JavaScript string written by a literal. -/
def js (s : String) : JSString := utf16s s.toList

/-- A thrown JavaScript error value, identified by its name. -/
structure JSError where
  name : String
  deriving DecidableEq, Repr

/-- The `InvalidCharacterError` DOMException thrown by `atob` and `btoa`. -/
def invalidCharacterError : JSError := ⟨"InvalidCharacterError"⟩

/-- The `SyntaxError` thrown by `JSON.parse`. -/
def syntaxError : JSError := ⟨"SyntaxError"⟩

/-! ## Base64: `btoa` and `atob` -/

/-- The base64 alphabet: the character that stands for a 6-bit value. -/
def base64Char (v : Nat) : Nat :=
  if v < 26 then 65 + v
  else if v < 52 then 97 + (v - 26)
  else if v < 62 then 48 + (v - 52)
  else if v = 62 then 43
  else 47

/-- The 6-bit value of a base64 character, if it is in the alphabet. -/
def base64Value (c : Nat) : Option Nat :=
  if 65 ≤ c ∧ c ≤ 90 then some (c - 65)
  else if 97 ≤ c ∧ c ≤ 122 then some (c - 97 + 26)
  else if 48 ≤ c ∧ c ≤ 57 then some (c - 48 + 52)
  else if c = 43 then some 62
  else if c = 47 then some 63
  else none

/-- Base64 of a byte sequence without the `=` padding. -/
def base64Body : List Nat → JSString
  | [] => []
  | [a] => [base64Char (a / 4), base64Char (a % 4 * 16)]
  | [a, b] => [base64Char (a / 4), base64Char (a % 4 * 16 + b / 16), base64Char (b % 16 * 4)]
  | a :: b :: c :: rest =>
    base64Char (a / 4) :: base64Char (a % 4 * 16 + b / 16) ::
      base64Char (b % 16 * 4 + c / 64) :: base64Char (c % 64) :: base64Body rest

/-- The `=` padding that completes the last group of four characters. -/
def base64Padding (n : Nat) : JSString :=
  if n % 3 = 1 then [61, 61] else if n % 3 = 2 then [61] else []

/-- Base64 of a byte sequence (RFC 4648, with padding). -/
def base64Encode (bytes : List Nat) : JSString :=
  base64Body bytes ++ base64Padding bytes.length

/-- Modelled from the spec: the browser built-in `btoa` is not part of the script.
It throws `InvalidCharacterError` when a code unit exceeds 255 and otherwise
returns the base64 of the string read as bytes. -/
def btoa (s : JSString) : Except JSError JSString :=
  if s.all (fun c => decide (c ≤ 255)) then .ok (base64Encode s)
  else .error invalidCharacterError

/-- ASCII whitespace, which `atob` removes before decoding. -/
def isAsciiWhitespace (c : Nat) : Bool :=
  c = 9 || c = 10 || c = 12 || c = 13 || c = 32

/-- Removal of a trailing `=`, if there is one. -/
def dropTrailingEquals (data : JSString) : JSString :=
  if data.getLast? = some 61 then data.dropLast else data

/-- Removal of one or two trailing `=` when the length is a multiple of four. -/
def stripPadding (data : JSString) : JSString :=
  if data.length % 4 = 0 then dropTrailingEquals (dropTrailingEquals data) else data

/-- The 6-bit values of a string of base64 characters, if all are in the alphabet. -/
def base64Values : JSString → Option (List Nat)
  | [] => some []
  | c :: rest =>
    match base64Value c, base64Values rest with
    | some v, some vs => some (v :: vs)
    | _, _ => none

/-- The bytes held by a sequence of 6-bit values; the bits left over in a last
group of two or three values are discarded. -/
def base64Bytes : List Nat → List Nat
  | a :: b :: c :: d :: rest =>
    (a * 4 + b / 16) :: (b % 16 * 16 + c / 4) :: (c % 4 * 64 + d) :: base64Bytes rest
  | [a, b, c] => [a * 4 + b / 16, b % 16 * 16 + c / 4]
  | [a, b] => [a * 4 + b / 16]
  | _ => []

/-- Modelled from the spec: the browser built-in `atob` is not part of the script.
It is the forgiving base64 decoding of the HTML standard: whitespace is removed,
padding is stripped, and a remaining length of 1 modulo 4 or a character outside
the alphabet throws `InvalidCharacterError`. -/
def atob (data : JSString) : Except JSError JSString :=
  let d := stripPadding (data.filter (fun c => !isAsciiWhitespace c))
  if d.length % 4 = 1 then .error invalidCharacterError
  else
    match base64Values d with
    | none => .error invalidCharacterError
    | some vs => .ok (base64Bytes vs)

/-! ## JSON: `JSON.parse` and `JSON.stringify` -/

/-- A value produced by `JSON.parse`. A number is kept as its lexeme (its value
as a double is not needed here) and an object as its members in source order. -/
inductive JSValue where
  | null
  | bool (b : Bool)
  | number (lexeme : JSString)
  | string (s : JSString)
  | array (items : List JSValue)
  | object (members : List (JSString × JSValue))
  deriving Repr

/-- The value of property `key` of a parsed value: of an object, the last member
with that name (a repeated name overwrites); of anything else, nothing. -/
def JSValue.get (key : JSString) : JSValue → Option JSValue
  | .object members => (members.reverse.find? (fun m => decide (m.1 = key))).map (fun m => m.2)
  | _ => none

/-- JSON whitespace. -/
def isJsonWhitespace (c : Nat) : Bool :=
  c = 32 || c = 9 || c = 10 || c = 13

/-- The rest of a text after its leading JSON whitespace. -/
def skipWs : JSString → JSString
  | [] => []
  | c :: rest => if isJsonWhitespace c then skipWs rest else c :: rest

/-- A lower-case hexadecimal digit. -/
def hexDigit (v : Nat) : Nat :=
  if v < 10 then 48 + v else 97 + (v - 10)

/-- The value of a hexadecimal digit of either case. -/
def hexValue (c : Nat) : Option Nat :=
  if 48 ≤ c ∧ c ≤ 57 then some (c - 48)
  else if 97 ≤ c ∧ c ≤ 102 then some (c - 97 + 10)
  else if 65 ≤ c ∧ c ≤ 70 then some (c - 65 + 10)
  else none

/-- The code unit named by the character after a backslash, for the
single-character escapes of JSON. -/
def simpleEscape (e : Nat) : Option Nat :=
  if e = 34 then some 34
  else if e = 92 then some 92
  else if e = 47 then some 47
  else if e = 98 then some 8
  else if e = 102 then some 12
  else if e = 110 then some 10
  else if e = 114 then some 13
  else if e = 116 then some 9
  else none

/-- The characters of a JSON string literal after its opening quote, up to and
including the closing quote: the string they denote and the text that follows. -/
def parseStringChars : JSString → Except JSError (JSString × JSString)
  | [] => .error syntaxError
  | c :: rest =>
    if c = 34 then .ok ([], rest)
    else if c = 92 then
      match rest with
      | [] => .error syntaxError
      | e :: rest1 =>
        if e = 117 then
          match rest1 with
          | h1 :: h2 :: h3 :: h4 :: rest2 =>
            match hexValue h1, hexValue h2, hexValue h3, hexValue h4 with
            | some a, some b, some c, some d =>
              match parseStringChars rest2 with
              | .ok (s, tail) => .ok ((((a * 16 + b) * 16 + c) * 16 + d) :: s, tail)
              | .error err => .error err
            | _, _, _, _ => .error syntaxError
          | _ => .error syntaxError
        else
          match simpleEscape e with
          | none => .error syntaxError
          | some u =>
            match parseStringChars rest1 with
            | .ok (s, tail) => .ok (u :: s, tail)
            | .error err => .error err
    else if c < 32 then .error syntaxError
    else
      match parseStringChars rest with
      | .ok (s, tail) => .ok (c :: s, tail)
      | .error err => .error err

/-- A decimal digit. -/
def isDigit (c : Nat) : Bool := decide (48 ≤ c ∧ c ≤ 57)

/-- The leading decimal digits of a text, and the rest. -/
def takeDigits : JSString → JSString × JSString
  | [] => ([], [])
  | c :: rest =>
    if isDigit c then ((takeDigits rest).1.cons c, (takeDigits rest).2) else ([], c :: rest)

/-- The integer part of a JSON number: `0`, or a non-zero digit and more digits. -/
def parseInt (s : JSString) : Except JSError (JSString × JSString) :=
  match s with
  | [] => .error syntaxError
  | c :: rest =>
    if c = 48 then .ok ([48], rest)
    else if isDigit c then .ok (c :: (takeDigits rest).1, (takeDigits rest).2)
    else .error syntaxError

/-- The optional fraction of a JSON number: a point and at least one digit. -/
def parseFrac (s : JSString) : Except JSError (JSString × JSString) :=
  match s with
  | 46 :: rest =>
    if (takeDigits rest).1 = [] then .error syntaxError
    else .ok (46 :: (takeDigits rest).1, (takeDigits rest).2)
  | _ => .ok ([], s)

/-- The digits of an exponent, which must not be empty. -/
def parseExpDigits (mark : JSString) (s : JSString) : Except JSError (JSString × JSString) :=
  if (takeDigits s).1 = [] then .error syntaxError
  else .ok (mark ++ (takeDigits s).1, (takeDigits s).2)

/-- The optional exponent of a JSON number: `e` or `E`, an optional sign, digits. -/
def parseExp (s : JSString) : Except JSError (JSString × JSString) :=
  match s with
  | e :: rest =>
    if e = 101 ∨ e = 69 then
      match rest with
      | sign :: rest1 =>
        if sign = 43 ∨ sign = 45 then parseExpDigits [e, sign] rest1
        else parseExpDigits [e] rest
      | [] => .error syntaxError
    else .ok ([], s)
  | [] => .ok ([], s)

/-- A JSON number after its optional minus sign. -/
def parseUnsigned (s : JSString) : Except JSError (JSString × JSString) :=
  match parseInt s with
  | .error err => .error err
  | .ok (i, r1) =>
    match parseFrac r1 with
    | .error err => .error err
    | .ok (f, r2) =>
      match parseExp r2 with
      | .error err => .error err
      | .ok (e, r3) => .ok (i ++ f ++ e, r3)

/-- A JSON number: its lexeme and the text that follows. -/
def parseNumber (s : JSString) : Except JSError (JSString × JSString) :=
  match s with
  | 45 :: rest =>
    match parseUnsigned rest with
    | .ok (n, tail) => .ok (45 :: n, tail)
    | .error err => .error err
  | _ => parseUnsigned s

/-- The text after a given prefix, if the text starts with it. -/
def dropPrefix : JSString → JSString → Option JSString
  | [], s => some s
  | _ :: _, [] => none
  | p :: ps, c :: rest => if p = c then dropPrefix ps rest else none

mutual
/-- A JSON value, with the nesting depth and the number of members bounded by
the fuel: the value and the text that follows it. -/
def parseValue : Nat → JSString → Except JSError (JSValue × JSString)
  | 0, _ => .error syntaxError
  | fuel + 1, s =>
    match skipWs s with
    | [] => .error syntaxError
    | c :: rest =>
      if c = 123 then
        match skipWs rest with
        | 125 :: tail => .ok (.object [], tail)
        | _ =>
          match parseMembers fuel rest with
          | .ok (ms, tail) => .ok (.object ms, tail)
          | .error err => .error err
      else if c = 91 then
        match skipWs rest with
        | 93 :: tail => .ok (.array [], tail)
        | _ =>
          match parseElements fuel rest with
          | .ok (vs, tail) => .ok (.array vs, tail)
          | .error err => .error err
      else if c = 34 then
        match parseStringChars rest with
        | .ok (str, tail) => .ok (.string str, tail)
        | .error err => .error err
      else if c = 116 then
        match dropPrefix [114, 117, 101] rest with
        | some tail => .ok (.bool true, tail)
        | none => .error syntaxError
      else if c = 102 then
        match dropPrefix [97, 108, 115, 101] rest with
        | some tail => .ok (.bool false, tail)
        | none => .error syntaxError
      else if c = 110 then
        match dropPrefix [117, 108, 108] rest with
        | some tail => .ok (.null, tail)
        | none => .error syntaxError
      else
        match parseNumber (c :: rest) with
        | .ok (n, tail) => .ok (.number n, tail)
        | .error err => .error err
/-- The elements of a non-empty JSON array after its opening bracket, up to and
including the closing bracket. -/
def parseElements : Nat → JSString → Except JSError (List JSValue × JSString)
  | 0, _ => .error syntaxError
  | fuel + 1, s =>
    match parseValue fuel s with
    | .error err => .error err
    | .ok (v, r1) =>
      match skipWs r1 with
      | 44 :: r2 =>
        match parseElements fuel r2 with
        | .ok (vs, tail) => .ok (v :: vs, tail)
        | .error err => .error err
      | 93 :: tail => .ok ([v], tail)
      | _ => .error syntaxError
/-- The members of a non-empty JSON object after its opening brace, up to and
including the closing brace. -/
def parseMembers : Nat → JSString → Except JSError (List (JSString × JSValue) × JSString)
  | 0, _ => .error syntaxError
  | fuel + 1, s =>
    match skipWs s with
    | 34 :: r0 =>
      match parseStringChars r0 with
      | .error err => .error err
      | .ok (key, r1) =>
        match skipWs r1 with
        | 58 :: r2 =>
          match parseValue fuel r2 with
          | .error err => .error err
          | .ok (v, r3) =>
            match skipWs r3 with
            | 44 :: r4 =>
              match parseMembers fuel r4 with
              | .ok (ms, tail) => .ok ((key, v) :: ms, tail)
              | .error err => .error err
            | 125 :: tail => .ok ([(key, v)], tail)
            | _ => .error syntaxError
        | _ => .error syntaxError
    | _ => .error syntaxError
end

/-- Modelled from the spec: the browser built-in `JSON.parse` is not part of the
script. It parses one JSON value (ECMA-404) surrounded by optional whitespace
and throws `SyntaxError` on anything else. Each nested value and each member
consumes at least one character, so the length of the text is enough fuel. -/
def JSON.parse (text : JSString) : Except JSError JSValue :=
  match parseValue (text.length + 1) text with
  | .error err => .error err
  | .ok (v, rest) => if skipWs rest = [] then .ok v else .error syntaxError

/-- A session description, the value of `pc.localDescription` when it is set and
of a resolved `pc.createOffer()`. -/
structure SessionDescription where
  type : JSString
  sdp : JSString
  deriving DecidableEq, Repr

/-- The object a session description is as a JSON value: `\x7btype, sdp\x7d`. -/
def SessionDescription.toJSValue (d : SessionDescription) : JSValue :=
  .object [(js "type", .string d.type), (js "sdp", .string d.sdp)]

/-- The `\u` escape of a code unit, with four lower-case hexadecimal digits. -/
def unicodeEscape (c : Nat) : JSString :=
  [92, 117, hexDigit (c / 4096), hexDigit (c / 256 % 16), hexDigit (c / 16 % 16), hexDigit (c % 16)]

/-- The JSON text of one code unit that is not part of a surrogate pair. -/
def quoteUnit (c : Nat) : JSString :=
  if c = 8 then [92, 98]
  else if c = 9 then [92, 116]
  else if c = 10 then [92, 110]
  else if c = 12 then [92, 102]
  else if c = 13 then [92, 114]
  else if c = 34 then [92, 34]
  else if c = 92 then [92, 92]
  else if c < 32 ∨ (55296 ≤ c ∧ c ≤ 57343) then unicodeEscape c
  else [c]

/-- The JSON text of the characters of a string: a leading surrogate followed by
a trailing surrogate is one code point and is copied; every other code unit is
quoted on its own, a lone surrogate as a `\u` escape. -/
def quoteChars : JSString → JSString
  | [] => []
  | [c] => quoteUnit c
  | c :: d :: rest =>
    if (55296 ≤ c ∧ c ≤ 56319) ∧ (56320 ≤ d ∧ d ≤ 57343) then c :: d :: quoteChars rest
    else quoteUnit c ++ quoteChars (d :: rest)

/-- The JSON string literal of a string (`QuoteJSONString` of ECMA-262). -/
def quoteJSONString (s : JSString) : JSString :=
  34 :: quoteChars s ++ [34]

/-- Modelled from the spec: the browser built-in `JSON.stringify` is not part of
the script, which applies it to `pc.localDescription` only: `null` while no
local description is set, else a description object whose `toJSON` gives its
`type` and `sdp`. -/
def JSON.stringify : Option SessionDescription → JSString
  | none => js "null"
  | some d =>
    js "\x7b\"type\":" ++ quoteJSONString d.type ++ js ",\"sdp\":" ++ quoteJSONString d.sdp ++ js "\x7d"

/-! ## The page, the connection and the trace -/

/-- The states of `pc.iceConnectionState`. -/
inductive IceConnectionState where
  | new | checking | connected | completed | failed | disconnected | closed
  deriving DecidableEq, Repr

/-- The string an ICE connection state is in a template literal. -/
def IceConnectionState.toJSString : IceConnectionState → JSString
  | .new => js "new"
  | .checking => js "checking"
  | .connected => js "connected"
  | .completed => js "completed"
  | .failed => js "failed"
  | .disconnected => js "disconnected"
  | .closed => js "closed"

/-- A media track, identified by its id. -/
structure MediaStreamTrack where
  id : Nat
  deriving DecidableEq, Repr

/-- A media stream: its id and what `getTracks()` returns. -/
structure MediaStream where
  id : Nat
  tracks : List MediaStreamTrack
  deriving DecidableEq, Repr

/-- The argument of `getDisplayMedia` and `getUserMedia`. -/
structure MediaStreamConstraints where
  video : Bool
  audio : Bool
  deriving DecidableEq, Repr

/-- An ICE candidate, the non-null value of `event.candidate`. -/
structure IceCandidate where
  candidate : JSString
  deriving DecidableEq, Repr

/-- What is handed to `log` and to `alert`: a string or a caught error. -/
inductive Message where
  | text (s : JSString)
  | error (e : JSError)
  deriving DecidableEq, Repr

/-- A call of the script into the browser, or a write to an element of the page. -/
inductive Effect where
  | getDisplayMedia (constraints : MediaStreamConstraints)
  | getUserMedia (constraints : MediaStreamConstraints)
  | logsAppend (msg : Message)
  | video1Set (stream : MediaStream)
  | video2Set (stream : Option MediaStream)
  | addTrack (track : MediaStreamTrack) (stream : MediaStream)
  | createOffer
  | setLocalDescription (offer : SessionDescription)
  | jsonStringify (value : Option SessionDescription)
  | btoa (s : JSString)
  | localSessionDescriptionSet (value : JSString)
  | alert (msg : Message)
  | atob (s : JSString)
  | jsonParse (text : JSString)
  | setRemoteDescription (value : JSValue)
  deriving Repr

/-- The attributes of the peer connection `pc` that the script reads, and the
remote description the spec speaks of. -/
structure Connection where
  iceConnectionState : IceConnectionState
  localDescription : Option SessionDescription
  remoteDescription : Option JSValue
  deriving Repr

/-- Where the async function `init` is suspended. -/
inductive InitState where
  | awaitMedia
  | awaitOffer
  | awaitSetLocal (offer : SessionDescription)
  | finished
  deriving DecidableEq, Repr

/-- The state the script runs in: the connection, the elements of the page it
reads and writes, where `init` stands, the `setRemoteDescription` promises not
yet settled, every effect so far, and the errors no handler caught. -/
structure World where
  pc : Connection
  logs : List Message
  video1 : Option MediaStream
  video2 : Option MediaStream
  localSessionDescription : JSString
  remoteSessionDescription : JSString
  initState : InitState
  pendingRemote : List JSValue
  trace : List Effect
  uncaught : List JSError
  deriving Repr

/-- The world with one more effect recorded. -/
def World.record (w : World) (e : Effect) : World :=
  { w with trace := w.trace ++ [e] }

/-! ## The script -/

/-- Lines 10-13, `log`: one more line in the `logs` element. -/
def log (msg : Message) (w : World) : World :=
  { w with logs := w.logs ++ [msg], trace := w.trace ++ [.logsAppend msg] }

/-- The blocking dialog `alert(msg)`. -/
def alert (msg : Message) (w : World) : World :=
  w.record (.alert msg)

/-- Lines 16-18, `mediaPromise`: the one media request the script makes, chosen by
the value `Math.random()` returned. That value is a double in `[0, 1)`; every
such double is a rational and `>` compares doubles exactly, so it is a rational
here. -/
def mediaPromise (random : ℚ) : Effect :=
  if random > 0.5 then .getDisplayMedia { video := true, audio := true }
  else .getUserMedia { video := true, audio := true }

/-- Lines 21-24, `pc.ontrack`, for an event with the given `streams`. -/
def ontrack (streams : List MediaStream) (w : World) : World :=
  let w1 := log (.text (js "收到远程流")) w
  { w1 with video2 := streams.head?, trace := w1.trace ++ [.video2Set streams.head?] }

/-- Line 34, `pc.addTrack(track, stream)`. On a connection that is never closed
and for the distinct tracks of one stream it does not throw. -/
def addTrack (track : MediaStreamTrack) (stream : MediaStream) (w : World) : World :=
  w.record (.addTrack track stream)

/-- Lines 28-38: `init` resumed when `mediaPromise` settles, up to the call of
`pc.createOffer()`; a rejection goes to the `catch` of line 40. -/
def initAfterMedia (media : Except JSError MediaStream) (w : World) : World :=
  match media with
  | .error err => log (.error err) { w with initState := .finished }
  | .ok stream =>
    let w1 := { w with video1 := some stream, trace := w.trace ++ [.video1Set stream] }
    let w2 := stream.tracks.foldl (fun acc track => addTrack track stream acc) w1
    { w2 with trace := w2.trace ++ [.createOffer], initState := .awaitOffer }

/-- Lines 38-39: `init` resumed when `pc.createOffer()` settles, up to the call of
`pc.setLocalDescription(offer)`. -/
def initAfterOffer (offer : Except JSError SessionDescription) (w : World) : World :=
  match offer with
  | .error err => log (.error err) { w with initState := .finished }
  | .ok o => { w with trace := w.trace ++ [.setLocalDescription o], initState := .awaitSetLocal o }

/-- Lines 39-42: `init` resumed when `pc.setLocalDescription(offer)` settles. When
it resolves the browser has made the offer the local description. -/
def initAfterSetLocal (offer : SessionDescription) (failure : Option JSError) (w : World) :
    World :=
  match failure with
  | some err => log (.error err) { w with initState := .finished }
  | none => { w with pc := { w.pc with localDescription := some offer }, initState := .finished }

/-- Lines 26-44, `init()` run to its end, given how its three awaited promises
settle. A promise that is never awaited is never looked at. -/
def init (media : Except JSError MediaStream) (offer : Except JSError SessionDescription)
    (failure : Option JSError) (w : World) : World :=
  let w1 := initAfterMedia media { w with initState := .awaitMedia }
  match w1.initState with
  | .awaitOffer =>
    let w2 := initAfterOffer offer w1
    match w2.initState with
    | .awaitSetLocal o => initAfterSetLocal o failure w2
    | _ => w2
  | _ => w1

/-- Lines 46-48, `pc.oniceconnectionstatechange`. -/
def oniceconnectionstatechange (w : World) : World :=
  log (.text (js "ICE 状态: " ++ w.pc.iceConnectionState.toJSString)) w

/-- Lines 50-56, `pc.onicecandidate`, for an event with the given `candidate`
(`none` is `null`). An error thrown by `btoa` is caught by nothing. -/
def onicecandidate (candidate : Option IceCandidate) (w : World) : World :=
  match candidate with
  | some _ => w
  | none =>
    let text := JSON.stringify w.pc.localDescription
    let w1 := (w.record (.jsonStringify w.pc.localDescription)).record (.btoa text)
    match btoa text with
    | .error err => { w1 with uncaught := w1.uncaught ++ [err] }
    | .ok localSDP =>
      { w1 with
        localSessionDescription := localSDP
        trace := w1.trace ++ [.localSessionDescriptionSet localSDP] }

/-- Lines 59-70, `window.startSession`. The empty string is the only string that
is falsy. `pc.setRemoteDescription` returns a promise, which is pending when
`startSession` returns. -/
def startSession (w : World) : World :=
  let remoteSDPEncoded := w.remoteSessionDescription
  if remoteSDPEncoded = [] then
    alert (.text (js "Session Description must not be empty")) w
  else
    let w1 := w.record (.atob remoteSDPEncoded)
    match atob remoteSDPEncoded with
    | .error err => alert (.error err) w1
    | .ok text =>
      let w2 := w1.record (.jsonParse text)
      match JSON.parse text with
      | .error err => alert (.error err) w2
      | .ok remoteSDP =>
        { w2 with
          trace := w2.trace ++ [.setRemoteDescription remoteSDP]
          pendingRemote := w2.pendingRemote ++ [remoteSDP] }

/-- Modelled from the spec: the peer connection is the browser's. It settles the
oldest pending `setRemoteDescription` promise: accepted, the value becomes the
remote description; rejected, the `.catch(log)` of line 66 logs the error. -/
def remoteDescriptionSettled (rejection : Option JSError) (w : World) : World :=
  match w.pendingRemote with
  | [] => w
  | v :: rest =>
    match rejection with
    | none => { w with pc := { w.pc with remoteDescription := some v }, pendingRemote := rest }
    | some err => log (.error err) { w with pendingRemote := rest }

/-- The world when the script has been loaded: lines 4-70 have run once, the
media request is made and `init()` is suspended at its first `await`. -/
def load (random : ℚ) : World :=
  { pc := { iceConnectionState := .new, localDescription := none, remoteDescription := none }
    logs := []
    video1 := none
    video2 := none
    localSessionDescription := []
    remoteSessionDescription := []
    initState := .awaitMedia
    pendingRemote := []
    trace := [mediaPromise random]
    uncaught := [] }

/-- What happens to a loaded script: a promise of `init` settles, the browser
changes the connection or delivers one of its events, the operator edits the
input field or asks to start the session. -/
inductive Event where
  | mediaSettled (media : Except JSError MediaStream)
  | offerSettled (offer : Except JSError SessionDescription)
  | setLocalSettled (failure : Option JSError)
  | localDescriptionChanged (d : SessionDescription)
  | track (streams : List MediaStream)
  | iceConnectionStateChange (s : IceConnectionState)
  | iceCandidate (candidate : Option IceCandidate)
  | input (text : JSString)
  | startSession
  | remoteSettled (rejection : Option JSError)

/-- An event of candidate discovery with a null candidate. -/
def Event.isGatheringComplete : Event → Bool
  | .iceCandidate none => true
  | _ => false

/-- The reaction to one event. A promise of `init` settles only while `init`
waits for it. -/
def step (w : World) : Event → World
  | .mediaSettled media =>
    match w.initState with
    | .awaitMedia => initAfterMedia media w
    | _ => w
  | .offerSettled offer =>
    match w.initState with
    | .awaitOffer => initAfterOffer offer w
    | _ => w
  | .setLocalSettled failure =>
    match w.initState with
    | .awaitSetLocal o => initAfterSetLocal o failure w
    | _ => w
  | .localDescriptionChanged d => { w with pc := { w.pc with localDescription := some d } }
  | .track streams => ontrack streams w
  | .iceConnectionStateChange s =>
    oniceconnectionstatechange { w with pc := { w.pc with iceConnectionState := s } }
  | .iceCandidate candidate => onicecandidate candidate w
  | .input text => { w with remoteSessionDescription := text }
  | .startSession => startSession w
  | .remoteSettled rejection => remoteDescriptionSettled rejection w

/-- The world after a sequence of events. -/
def run (w : World) (events : List Event) : World :=
  events.foldl step w

/-- The value an effect writes to the output field `localSessionDescription`. -/
def Effect.outputWrite? : Effect → Option JSString
  | .localSessionDescriptionSet v => some v
  | _ => none

/-- The value an effect hands to `pc.setRemoteDescription`. -/
def Effect.remoteCall? : Effect → Option JSValue
  | .setRemoteDescription v => some v
  | _ => none

/-- The message an effect shows through `alert`. -/
def Effect.alert? : Effect → Option Message
  | .alert m => some m
  | _ => none

/-- Whether an effect is a media request. -/
def Effect.isMediaRequest : Effect → Bool
  | .getDisplayMedia _ => true
  | .getUserMedia _ => true
  | _ => false

/-- Whether an effect is a call of `atob` or of `JSON.parse`. -/
def Effect.isDecoding : Effect → Bool
  | .atob _ => true
  | .jsonParse _ => true
  | _ => false

/-- The values written to the output field `localSessionDescription`, in order. -/
def outputWrites (trace : List Effect) : List JSString :=
  trace.filterMap Effect.outputWrite?

/-- The values `pc.setRemoteDescription` was called with, in order. -/
def remoteCalls (trace : List Effect) : List JSValue :=
  trace.filterMap Effect.remoteCall?

/-- The messages shown by `alert`, in order. -/
def alerts (trace : List Effect) : List Message :=
  trace.filterMap Effect.alert?

/-- The media requests made, in order. -/
def mediaRequests (trace : List Effect) : List Effect :=
  trace.filter Effect.isMediaRequest

/-- The calls of `atob` and of `JSON.parse`, in order. -/
def decodings (trace : List Effect) : List Effect :=
  trace.filter Effect.isDecoding

/-- Line 65, `JSON.parse(atob(remoteSDPEncoded))`: the decoded value, or the
error thrown by whichever of the two calls fails first. -/
def decode (remoteSDPEncoded : JSString) : Except JSError JSValue :=
  match atob remoteSDPEncoded with
  | .error err => .error err
  | .ok text => JSON.parse text

/-- The operator pastes `encodedBlob` into the input field and starts the
session: `acceptRemoteDescription(encodedBlob)` of the spec. -/
def acceptRemoteDescription (encodedBlob : JSString) : List Event :=
  [.input encodedBlob, .startSession]

/-- The operator does so for each blob of a list, in order. -/
def acceptAll : List JSString → List Event
  | [] => []
  | blob :: blobs => acceptRemoteDescription blob ++ acceptAll blobs

/-- The events of candidate discovery that carry the given candidates, in order. -/
def candidateEvents (candidates : List (Option IceCandidate)) : List Event :=
  candidates.map Event.iceCandidate

/-- The number of null candidates among the given ones. -/
def nullCandidates (candidates : List (Option IceCandidate)) : Nat :=
  (candidates.filter Option.isNone).length

/-! ## Concrete values for the examples -/

/-- A small answer, as a remote peer would send it. -/
def sampleAnswer : SessionDescription :=
  { type := js "answer", sdp := js "v=0\r\n" }

/-- A small offer, as `pc.createOffer()` would resolve to. -/
def sampleOffer : SessionDescription :=
  { type := js "offer", sdp := js "v=0\r\n" }

/-- The blob of `sampleAnswer`. -/
def sampleAnswerBlob : JSString :=
  js "eyJ0eXBlIjoiYW5zd2VyIiwic2RwIjoidj0wXHJcbiJ9"

/-- A stream with a video track and an audio track. -/
def sampleStream : MediaStream :=
  { id := 1, tracks := [{ id := 10 }, { id := 11 }] }

/-- A loaded page into whose input field `text` has been typed. -/
def pageWithInput (text : JSString) : World :=
  step (load 0) (.input text)

/-- A session whose offer has been created and set, before any candidate. -/
def sessionWithOffer : World :=
  run (load 0) [.mediaSettled (.ok sampleStream), .offerSettled (.ok sampleOffer),
    .setLocalSettled none]

/-! ## Base64 round trip -/

theorem base64Value_base64Char (v : Nat) (h : v < 64) : base64Value (base64Char v) = some v := by
  unfold base64Char base64Value
  split_ifs <;> first | omega | (congr 1; omega)

theorem base64Char_ne_pad (v : Nat) : base64Char v ≠ 61 := by
  unfold base64Char
  split_ifs <;> omega

theorem base64Char_not_whitespace (v : Nat) : isAsciiWhitespace (base64Char v) = false := by
  unfold base64Char isAsciiWhitespace
  split_ifs <;> simp <;> omega

theorem base64Body_ne_pad : ∀ (bytes : List Nat), ∀ c ∈ base64Body bytes, c ≠ 61
  | [] => by simp [base64Body]
  | [a] => by
    intro c hc
    simp only [base64Body, List.mem_cons, List.mem_singleton, List.not_mem_nil, or_false] at hc
    rcases hc with rfl | rfl <;> exact base64Char_ne_pad _
  | [a, b] => by
    intro c hc
    simp only [base64Body, List.mem_cons, List.mem_singleton, List.not_mem_nil, or_false] at hc
    rcases hc with rfl | rfl | rfl <;> exact base64Char_ne_pad _
  | a :: b :: c :: rest => by
    intro x hx
    simp only [base64Body, List.mem_cons] at hx
    rcases hx with rfl | rfl | rfl | rfl | hx
    · exact base64Char_ne_pad _
    · exact base64Char_ne_pad _
    · exact base64Char_ne_pad _
    · exact base64Char_ne_pad _
    · exact base64Body_ne_pad rest x hx

theorem base64Body_not_whitespace : ∀ (bytes : List Nat), ∀ c ∈ base64Body bytes,
    isAsciiWhitespace c = false
  | [] => by simp [base64Body]
  | [a] => by
    intro c hc
    simp only [base64Body, List.mem_cons, List.mem_singleton, List.not_mem_nil, or_false] at hc
    rcases hc with rfl | rfl <;> exact base64Char_not_whitespace _
  | [a, b] => by
    intro c hc
    simp only [base64Body, List.mem_cons, List.mem_singleton, List.not_mem_nil, or_false] at hc
    rcases hc with rfl | rfl | rfl <;> exact base64Char_not_whitespace _
  | a :: b :: c :: rest => by
    intro x hx
    simp only [base64Body, List.mem_cons] at hx
    rcases hx with rfl | rfl | rfl | rfl | hx
    · exact base64Char_not_whitespace _
    · exact base64Char_not_whitespace _
    · exact base64Char_not_whitespace _
    · exact base64Char_not_whitespace _
    · exact base64Body_not_whitespace rest x hx

theorem base64Padding_not_whitespace (n : Nat) : ∀ c ∈ base64Padding n,
    isAsciiWhitespace c = false := by
  intro c hc
  unfold base64Padding at hc
  split_ifs at hc
  · simp only [List.mem_cons, List.mem_singleton, List.not_mem_nil, or_false, or_self] at hc
    subst hc
    rfl
  · simp only [List.mem_singleton] at hc
    subst hc
    rfl
  · simp at hc

/-- The length of the unpadded base64 text, together with that of the padding. -/
theorem base64Body_length : ∀ (bytes : List Nat),
    (base64Body bytes).length + (base64Padding bytes.length).length = 4 * ((bytes.length + 2) / 3)
  | [] => by simp [base64Body, base64Padding]
  | [a] => by simp [base64Body, base64Padding]
  | [a, b] => by simp [base64Body, base64Padding]
  | a :: b :: c :: rest => by
    have ih := base64Body_length rest
    have hp : base64Padding (a :: b :: c :: rest).length = base64Padding rest.length := by
      unfold base64Padding
      simp only [List.length_cons]
      have hmod : (rest.length + 1 + 1 + 1) % 3 = rest.length % 3 := by omega
      simp only [hmod]
    rw [hp]
    simp only [base64Body, List.length_cons]
    omega

theorem stripPadding_base64Encode (bytes : List Nat) :
    stripPadding (base64Encode bytes) = base64Body bytes := by
  have hlen := base64Body_length bytes
  have hne := base64Body_ne_pad bytes
  have hlast : (base64Body bytes).getLast? ≠ some 61 := by
    intro h
    exact hne 61 (List.mem_of_getLast?_eq_some h) rfl
  have hdrop : dropTrailingEquals (base64Body bytes) = base64Body bytes := by
    unfold dropTrailingEquals
    rw [if_neg hlast]
  have hdrop1 : dropTrailingEquals (base64Body bytes ++ [61]) = base64Body bytes := by
    unfold dropTrailingEquals
    simp
  unfold stripPadding base64Encode
  rw [if_pos (by rw [List.length_append]; omega)]
  unfold base64Padding
  split_ifs
  · have : base64Body bytes ++ [61, 61] = (base64Body bytes ++ [61]) ++ [61] := by simp
    rw [this]
    have h2 : dropTrailingEquals ((base64Body bytes ++ [61]) ++ [61]) = base64Body bytes ++ [61] := by
      unfold dropTrailingEquals
      simp
    rw [h2, hdrop1]
  · rw [hdrop1, hdrop]
  · simp [hdrop]

/-- The 6-bit values of the unpadded base64 text of bytes decode to those bytes,
and their number is never 1 modulo 4. -/
theorem base64Body_decodes : ∀ (bytes : List Nat), (∀ b ∈ bytes, b ≤ 255) →
    ∃ vs, base64Values (base64Body bytes) = some vs ∧ base64Bytes vs = bytes ∧
      (base64Body bytes).length % 4 ≠ 1
  | [], _ => ⟨[], by simp [base64Body, base64Values, base64Bytes]⟩
  | [a], h => by
    have ha : a ≤ 255 := h a (by simp)
    refine ⟨[a / 4, a % 4 * 16], ?_, ?_, ?_⟩
    · simp only [base64Body, base64Values]
      rw [base64Value_base64Char _ (by omega), base64Value_base64Char _ (by omega)]
    · simp only [base64Bytes]
      congr 1
      omega
    · simp [base64Body]
  | [a, b], h => by
    have ha : a ≤ 255 := h a (by simp)
    have hb : b ≤ 255 := h b (by simp)
    refine ⟨[a / 4, a % 4 * 16 + b / 16, b % 16 * 4], ?_, ?_, ?_⟩
    · simp only [base64Body, base64Values]
      rw [base64Value_base64Char _ (by omega), base64Value_base64Char _ (by omega),
        base64Value_base64Char _ (by omega)]
    · simp only [base64Bytes]
      congr 1
      · omega
      · congr 1
        omega
    · simp [base64Body]
  | a :: b :: c :: rest, h => by
    have ha : a ≤ 255 := h a (by simp)
    have hb : b ≤ 255 := h b (by simp)
    have hc : c ≤ 255 := h c (by simp)
    obtain ⟨vs, hvs, hbytes, hlen⟩ := base64Body_decodes rest (fun x hx => h x (by simp [hx]))
    refine ⟨a / 4 :: (a % 4 * 16 + b / 16) :: (b % 16 * 4 + c / 64) :: (c % 64) :: vs, ?_, ?_, ?_⟩
    · simp only [base64Body, base64Values]
      rw [base64Value_base64Char _ (by omega), base64Value_base64Char _ (by omega),
        base64Value_base64Char _ (by omega), base64Value_base64Char _ (by omega), hvs]
    · simp only [base64Bytes, hbytes]
      congr 1
      · omega
      · congr 1
        · omega
        · congr 1
          omega
    · simp only [base64Body, List.length_cons]
      omega

/-- Decoding undoes encoding: `atob` of the base64 of a byte string is that string. -/
theorem atob_base64Encode (bytes : List Nat) (h : ∀ b ∈ bytes, b ≤ 255) :
    atob (base64Encode bytes) = .ok bytes := by
  have hfilter : (base64Encode bytes).filter (fun c => !isAsciiWhitespace c) = base64Encode bytes := by
    rw [List.filter_eq_self]
    intro c hc
    unfold base64Encode at hc
    rcases List.mem_append.mp hc with hc | hc
    · simp [base64Body_not_whitespace bytes c hc]
    · simp [base64Padding_not_whitespace _ c hc]
  obtain ⟨vs, hvs, hbytes, hlen⟩ := base64Body_decodes bytes h
  unfold atob
  simp only [hfilter, stripPadding_base64Encode, hvs, hbytes]
  rw [if_neg hlen]

/-- On a string of code units up to 255 `btoa` succeeds, and `atob` undoes it. -/
theorem atob_btoa (s : JSString) (h : ∀ c ∈ s, c ≤ 255) :
    btoa s = .ok (base64Encode s) ∧ atob (base64Encode s) = .ok s := by
  refine ⟨?_, atob_base64Encode s h⟩
  unfold btoa
  rw [if_pos]
  simpa using h

theorem base64Encode_ne_nil (bytes : List Nat) (h : bytes ≠ []) : base64Encode bytes ≠ [] := by
  unfold base64Encode
  match bytes, h with
  | [a], _ => simp [base64Body]
  | [a, b], _ => simp [base64Body]
  | a :: b :: c :: rest, _ => simp [base64Body]

/-! ## JSON round trip -/

theorem hexValue_hexDigit (v : Nat) (h : v < 16) : hexValue (hexDigit v) = some v := by
  unfold hexDigit hexValue
  split_ifs <;> first | omega | (congr 1; omega)

theorem parseStringChars_quote (tail : JSString) :
    parseStringChars (34 :: tail) = .ok ([], tail) := by
  rw [parseStringChars.eq_def]
  simp

theorem parseStringChars_plain (c : Nat) (rest s tail : JSString) (h1 : c ≠ 34) (h2 : c ≠ 92)
    (h3 : ¬ c < 32) (h : parseStringChars rest = .ok (s, tail)) :
    parseStringChars (c :: rest) = .ok (c :: s, tail) := by
  rw [parseStringChars.eq_def]
  simp [h1, h2, h3, h]

theorem parseStringChars_simpleEscape (e u : Nat) (rest s tail : JSString) (h1 : e ≠ 117)
    (hu : simpleEscape e = some u) (h : parseStringChars rest = .ok (s, tail)) :
    parseStringChars (92 :: e :: rest) = .ok (u :: s, tail) := by
  rw [parseStringChars.eq_def]
  simp [h1, hu, h]

theorem parseStringChars_hex (h1 h2 h3 h4 a b c d : Nat) (rest s tail : JSString)
    (e1 : hexValue h1 = some a) (e2 : hexValue h2 = some b) (e3 : hexValue h3 = some c)
    (e4 : hexValue h4 = some d) (h : parseStringChars rest = .ok (s, tail)) :
    parseStringChars (92 :: 117 :: h1 :: h2 :: h3 :: h4 :: rest)
      = .ok ((((a * 16 + b) * 16 + c) * 16 + d) :: s, tail) := by
  rw [parseStringChars.eq_def]
  simp [e1, e2, e3, e4, h]

theorem parseStringChars_unicodeEscape (c : Nat) (hc : c < 65536) (rest s tail : JSString)
    (h : parseStringChars rest = .ok (s, tail)) :
    parseStringChars (unicodeEscape c ++ rest) = .ok (c :: s, tail) := by
  have e : (((c / 4096) * 16 + c / 256 % 16) * 16 + c / 16 % 16) * 16 + c % 16 = c := by omega
  simp only [unicodeEscape, List.cons_append, List.nil_append]
  rw [parseStringChars_hex _ _ _ _ _ _ _ _ rest s tail (hexValue_hexDigit _ (by omega))
    (hexValue_hexDigit _ (by omega)) (hexValue_hexDigit _ (by omega))
    (hexValue_hexDigit _ (by omega)) h, e]

theorem parseStringChars_quoteUnit (c : Nat) (rest s tail : JSString)
    (h : parseStringChars rest = .ok (s, tail)) :
    parseStringChars (quoteUnit c ++ rest) = .ok (c :: s, tail) := by
  unfold quoteUnit
  split_ifs with h1 h2 h3 h4 h5 h6 h7 h8
  · subst h1; exact parseStringChars_simpleEscape 98 8 rest s tail (by decide) rfl h
  · subst h2; exact parseStringChars_simpleEscape 116 9 rest s tail (by decide) rfl h
  · subst h3; exact parseStringChars_simpleEscape 110 10 rest s tail (by decide) rfl h
  · subst h4; exact parseStringChars_simpleEscape 102 12 rest s tail (by decide) rfl h
  · subst h5; exact parseStringChars_simpleEscape 114 13 rest s tail (by decide) rfl h
  · subst h6; exact parseStringChars_simpleEscape 34 34 rest s tail (by decide) rfl h
  · subst h7; exact parseStringChars_simpleEscape 92 92 rest s tail (by decide) rfl h
  · exact parseStringChars_unicodeEscape c (by omega) rest s tail h
  · have h32 : ¬ c < 32 := fun hlt => h8 (Or.inl hlt)
    exact parseStringChars_plain c rest s tail h6 h7 h32 h

/-- Parsing undoes quoting: the quoted characters of a string followed by a
closing quote parse to the string. -/
theorem parseStringChars_quoteChars : ∀ (s tail : JSString),
    parseStringChars (quoteChars s ++ 34 :: tail) = .ok (s, tail)
  | [], tail => by
    simp only [quoteChars, List.nil_append]
    exact parseStringChars_quote tail
  | [c], tail => by
    simp only [quoteChars]
    exact parseStringChars_quoteUnit c _ [] tail (parseStringChars_quote tail)
  | c :: d :: rest, tail => by
    unfold quoteChars
    split_ifs with hp
    · have ih := parseStringChars_quoteChars rest tail
      simp only [List.cons_append]
      exact parseStringChars_plain c _ _ tail (by omega) (by omega) (by omega)
        (parseStringChars_plain d _ _ tail (by omega) (by omega) (by omega) ih)
    · rw [List.append_assoc]
      exact parseStringChars_quoteUnit c _ _ tail (parseStringChars_quoteChars (d :: rest) tail)

theorem stringify_some (d : SessionDescription) :
    JSON.stringify (some d) =
      123 :: 34 :: 116 :: 121 :: 112 :: 101 :: 34 :: 58 :: 34 ::
        (quoteChars d.type ++ 34 :: 44 :: 34 :: 115 :: 100 :: 112 :: 34 :: 58 :: 34 ::
          (quoteChars d.sdp ++ [34, 125])) := by
  simp [JSON.stringify, quoteJSONString, js, utf16s, utf16]

theorem parseValue_string (fuel : Nat) (rest str tail : JSString)
    (h : parseStringChars rest = .ok (str, tail)) :
    parseValue (fuel + 1) (34 :: rest) = .ok (.string str, tail) := by
  rw [parseValue.eq_def]
  simp [skipWs, isJsonWhitespace, h]

theorem parseMembers_last (fuel : Nat) (r0 key r2 r3 : JSString) (v : JSValue)
    (hkey : parseStringChars r0 = .ok (key, 58 :: r2))
    (hval : parseValue fuel r2 = .ok (v, 125 :: r3)) :
    parseMembers (fuel + 1) (34 :: r0) = .ok ([(key, v)], r3) := by
  rw [parseMembers.eq_def]
  simp [skipWs, isJsonWhitespace, hkey, hval]

theorem parseMembers_more (fuel : Nat) (r0 key r2 r4 tail : JSString) (v : JSValue)
    (ms : List (JSString × JSValue))
    (hkey : parseStringChars r0 = .ok (key, 58 :: r2))
    (hval : parseValue fuel r2 = .ok (v, 44 :: r4))
    (hrest : parseMembers fuel r4 = .ok (ms, tail)) :
    parseMembers (fuel + 1) (34 :: r0) = .ok ((key, v) :: ms, tail) := by
  rw [parseMembers.eq_def]
  simp [skipWs, isJsonWhitespace, hkey, hval, hrest]

theorem parseValue_object (fuel : Nat) (rest tail : JSString) (ms : List (JSString × JSValue))
    (h : parseMembers fuel (34 :: rest) = .ok (ms, tail)) :
    parseValue (fuel + 1) (123 :: 34 :: rest) = .ok (.object ms, tail) := by
  rw [parseValue.eq_def]
  simp [skipWs, isJsonWhitespace, h]

/-- Parsing undoes serialising: the JSON text of a description parses to the
object with its `type` and its `sdp`. -/
theorem parse_stringify (d : SessionDescription) :
    JSON.parse (JSON.stringify (some d)) = .ok d.toJSValue := by
  have hsdp : parseStringChars (quoteChars d.sdp ++ [34, 125]) = .ok (d.sdp, [125]) :=
    parseStringChars_quoteChars d.sdp [125]
  have htype := parseStringChars_quoteChars d.type
    (44 :: 34 :: 115 :: 100 :: 112 :: 34 :: 58 :: 34 :: (quoteChars d.sdp ++ [34, 125]))
  have hkey1 : ∀ tail, parseStringChars (116 :: 121 :: 112 :: 101 :: 34 :: tail)
      = .ok ([116, 121, 112, 101], tail) := fun tail =>
    parseStringChars_quoteChars [116, 121, 112, 101] tail
  have hkey2 : ∀ tail, parseStringChars (115 :: 100 :: 112 :: 34 :: tail)
      = .ok ([115, 100, 112], tail) := fun tail =>
    parseStringChars_quoteChars [115, 100, 112] tail
  have hfuel : ∃ k, (JSON.stringify (some d)).length + 1 = k + 4 := by
    rw [stringify_some]
    refine ⟨(quoteChars d.type).length + (quoteChars d.sdp).length + 17, ?_⟩
    simp only [List.length_cons, List.length_append, List.length_nil]
    omega
  obtain ⟨k, hk⟩ := hfuel
  unfold JSON.parse
  rw [hk, stringify_some]
  have hm2 := parseMembers_last (k + 1) _ _ _ [] _ (hkey2 _)
    (parseValue_string k _ _ _ hsdp)
  have hm1 := parseMembers_more (k + 2) _ _ _ _ _ _ _ (hkey1 _)
    (parseValue_string (k + 1) _ _ _ htype) hm2
  rw [parseValue_object (k + 3) _ _ _ hm1]
  simp [skipWs, SessionDescription.toJSValue, js, utf16s, utf16]

/-! ## Projections of the trace -/

theorem outputWrites_append (a b : List Effect) :
    outputWrites (a ++ b) = outputWrites a ++ outputWrites b := by
  simp [outputWrites]

theorem remoteCalls_append (a b : List Effect) :
    remoteCalls (a ++ b) = remoteCalls a ++ remoteCalls b := by
  simp [remoteCalls]

theorem alerts_append (a b : List Effect) : alerts (a ++ b) = alerts a ++ alerts b := by
  simp [alerts]

theorem mediaRequests_append (a b : List Effect) :
    mediaRequests (a ++ b) = mediaRequests a ++ mediaRequests b := by
  simp [mediaRequests]

theorem decodings_append (a b : List Effect) :
    decodings (a ++ b) = decodings a ++ decodings b := by
  simp [decodings]

theorem mediaPromise_zero :
    mediaPromise 0 = .getUserMedia { video := true, audio := true } := by
  unfold mediaPromise
  norm_num

/-- The tracks of a stream are added one by one and nothing else changes. -/
theorem addTracks_eq (stream : MediaStream) : ∀ (tracks : List MediaStreamTrack) (w : World),
    tracks.foldl (fun acc track => addTrack track stream acc) w
      = { w with trace := w.trace ++ tracks.map (fun track => Effect.addTrack track stream) }
  | [], w => by simp
  | t :: ts, w => by
    rw [List.foldl_cons, addTracks_eq stream ts]
    simp [addTrack, World.record]

theorem outputWrites_addTracks (stream : MediaStream) (tracks : List MediaStreamTrack) :
    outputWrites (tracks.map (fun track => Effect.addTrack track stream)) = [] := by
  induction tracks with
  | nil => rfl
  | cons t ts ih => simp [outputWrites, Effect.outputWrite?]

theorem mediaRequests_addTracks (stream : MediaStream) (tracks : List MediaStreamTrack) :
    mediaRequests (tracks.map (fun track => Effect.addTrack track stream)) = [] := by
  induction tracks with
  | nil => rfl
  | cons t ts ih => simp [mediaRequests, Effect.isMediaRequest]

/-! ## `startSession`, case by case -/

theorem startSession_empty (w : World) (h : w.remoteSessionDescription = []) :
    startSession w
      = { w with
          trace := w.trace ++ [.alert (.text (js "Session Description must not be empty"))] } := by
  unfold startSession
  simp [h, alert, World.record]

theorem startSession_atob_error (w : World) (e : JSError) (hne : w.remoteSessionDescription ≠ [])
    (ha : atob w.remoteSessionDescription = .error e) :
    startSession w
      = { w with trace := w.trace ++ [.atob w.remoteSessionDescription, .alert (.error e)] } := by
  unfold startSession
  simp [hne, ha, alert, World.record]

theorem startSession_parse_error (w : World) (text : JSString) (e : JSError)
    (hne : w.remoteSessionDescription ≠ []) (ha : atob w.remoteSessionDescription = .ok text)
    (hp : JSON.parse text = .error e) :
    startSession w
      = { w with
          trace := w.trace ++
            [.atob w.remoteSessionDescription, .jsonParse text, .alert (.error e)] } := by
  unfold startSession
  simp [hne, ha, hp, alert, World.record]

theorem startSession_ok (w : World) (text : JSString) (v : JSValue)
    (hne : w.remoteSessionDescription ≠ []) (ha : atob w.remoteSessionDescription = .ok text)
    (hp : JSON.parse text = .ok v) :
    startSession w
      = { w with
          trace := w.trace ++
            [.atob w.remoteSessionDescription, .jsonParse text, .setRemoteDescription v]
          pendingRemote := w.pendingRemote ++ [v] } := by
  unfold startSession
  simp [hne, ha, hp, World.record]

theorem decode_ok (blob : JSString) (v : JSValue) (h : decode blob = .ok v) :
    ∃ text, atob blob = .ok text ∧ JSON.parse text = .ok v := by
  unfold decode at h
  cases ha : atob blob with
  | error err => simp [ha] at h
  | ok text => exact ⟨text, rfl, by simpa [ha] using h⟩

theorem decode_error (blob : JSString) (e : JSError) (h : decode blob = .error e) :
    atob blob = .error e ∨ ∃ text, atob blob = .ok text ∧ JSON.parse text = .error e := by
  unfold decode at h
  cases ha : atob blob with
  | error err =>
    left
    simpa [ha] using h
  | ok text => exact Or.inr ⟨text, rfl, by simpa [ha] using h⟩

theorem btoa_ok (s blob : JSString) (h : btoa s = .ok blob) :
    (∀ c ∈ s, c ≤ 255) ∧ blob = base64Encode s := by
  unfold btoa at h
  split_ifs at h with hall
  · refine ⟨by simpa using hall, ?_⟩
    cases h
    rfl

theorem stringify_ne_nil (d : SessionDescription) : JSON.stringify (some d) ≠ [] := by
  rw [stringify_some]
  simp

/-- The blob of a description decodes to the description. -/
theorem decode_blob (d : SessionDescription) (blob : JSString)
    (h : btoa (JSON.stringify (some d)) = .ok blob) :
    blob ≠ [] ∧ atob blob = .ok (JSON.stringify (some d)) ∧ decode blob = .ok d.toJSValue := by
  obtain ⟨hl, rfl⟩ := btoa_ok _ _ h
  have ha := atob_base64Encode _ hl
  refine ⟨base64Encode_ne_nil _ (stringify_ne_nil d), ha, ?_⟩
  unfold decode
  rw [ha]
  exact parse_stringify d

theorem toJSValue_get_type (d : SessionDescription) :
    d.toJSValue.get (js "type") = some (.string d.type) := by
  have h1 : js "sdp" ≠ js "type" := by decide
  simp [SessionDescription.toJSValue, JSValue.get, h1]

theorem toJSValue_get_sdp (d : SessionDescription) :
    d.toJSValue.get (js "sdp") = some (.string d.sdp) := by
  simp [SessionDescription.toJSValue, JSValue.get]

/-! ## What one event adds to the trace -/

theorem log_eq (msg : Message) (w : World) :
    log msg w = { w with logs := w.logs ++ [msg], trace := w.trace ++ [.logsAppend msg] } := rfl

theorem initAfterMedia_effects (media : Except JSError MediaStream) (w : World) :
    ∃ new, (initAfterMedia media w).trace = w.trace ++ new ∧ mediaRequests new = [] ∧
      outputWrites new = [] ∧
      (initAfterMedia media w).localSessionDescription = w.localSessionDescription := by
  cases media with
  | error err => exact ⟨[.logsAppend (.error err)], rfl, rfl, rfl, rfl⟩
  | ok stream =>
    refine ⟨[.video1Set stream] ++ stream.tracks.map (fun t => Effect.addTrack t stream) ++
      [.createOffer], ?_, ?_, ?_, ?_⟩
    · simp [initAfterMedia, addTracks_eq]
    · simp [mediaRequests_append, mediaRequests_addTracks]
      simp [mediaRequests, Effect.isMediaRequest]
    · simp [outputWrites_append, outputWrites_addTracks]
      simp [outputWrites, Effect.outputWrite?]
    · simp [initAfterMedia, addTracks_eq]

theorem initAfterOffer_effects (offer : Except JSError SessionDescription) (w : World) :
    ∃ new, (initAfterOffer offer w).trace = w.trace ++ new ∧ mediaRequests new = [] ∧
      outputWrites new = [] ∧
      (initAfterOffer offer w).localSessionDescription = w.localSessionDescription := by
  cases offer with
  | error err => exact ⟨[.logsAppend (.error err)], rfl, rfl, rfl, rfl⟩
  | ok o => exact ⟨[.setLocalDescription o], rfl, rfl, rfl, rfl⟩

theorem initAfterSetLocal_effects (o : SessionDescription) (failure : Option JSError)
    (w : World) :
    ∃ new, (initAfterSetLocal o failure w).trace = w.trace ++ new ∧ mediaRequests new = [] ∧
      outputWrites new = [] ∧
      (initAfterSetLocal o failure w).localSessionDescription = w.localSessionDescription := by
  cases failure with
  | some err => exact ⟨[.logsAppend (.error err)], rfl, rfl, rfl, rfl⟩
  | none => exact ⟨[], by simp [initAfterSetLocal], rfl, rfl, rfl⟩

theorem startSession_effects (w : World) :
    ∃ new, (startSession w).trace = w.trace ++ new ∧ mediaRequests new = [] ∧
      outputWrites new = [] ∧
      (startSession w).localSessionDescription = w.localSessionDescription := by
  by_cases hne : w.remoteSessionDescription = []
  · rw [startSession_empty w hne]
    exact ⟨_, rfl, rfl, rfl, rfl⟩
  · cases ha : atob w.remoteSessionDescription with
    | error e =>
      rw [startSession_atob_error w e hne ha]
      exact ⟨_, rfl, rfl, rfl, rfl⟩
    | ok text =>
      cases hp : JSON.parse text with
      | error e =>
        rw [startSession_parse_error w text e hne ha hp]
        exact ⟨_, rfl, rfl, rfl, rfl⟩
      | ok v =>
        rw [startSession_ok w text v hne ha hp]
        exact ⟨_, rfl, rfl, rfl, rfl⟩

theorem remoteDescriptionSettled_effects (rejection : Option JSError) (w : World) :
    ∃ new, (remoteDescriptionSettled rejection w).trace = w.trace ++ new ∧
      mediaRequests new = [] ∧ outputWrites new = [] ∧
      (remoteDescriptionSettled rejection w).localSessionDescription
        = w.localSessionDescription := by
  unfold remoteDescriptionSettled
  cases hp : w.pendingRemote with
  | nil => exact ⟨[], by simp, rfl, rfl, rfl⟩
  | cons v rest =>
    cases rejection with
    | none => exact ⟨[], by simp, rfl, rfl, rfl⟩
    | some err => exact ⟨[.logsAppend (.error err)], rfl, rfl, rfl, rfl⟩

theorem onicecandidate_null_ok (w : World) (b : JSString)
    (h : btoa (JSON.stringify w.pc.localDescription) = .ok b) :
    onicecandidate none w
      = { w with
          localSessionDescription := b
          trace := w.trace ++ [.jsonStringify w.pc.localDescription,
            .btoa (JSON.stringify w.pc.localDescription), .localSessionDescriptionSet b] } := by
  unfold onicecandidate
  simp [h, World.record]

theorem onicecandidate_null_error (w : World) (e : JSError)
    (h : btoa (JSON.stringify w.pc.localDescription) = .error e) :
    onicecandidate none w
      = { w with
          uncaught := w.uncaught ++ [e]
          trace := w.trace ++ [.jsonStringify w.pc.localDescription,
            .btoa (JSON.stringify w.pc.localDescription)] } := by
  unfold onicecandidate
  simp [h, World.record]

theorem onicecandidate_media (candidate : Option IceCandidate) (w : World) :
    ∃ new, (onicecandidate candidate w).trace = w.trace ++ new ∧ mediaRequests new = [] := by
  cases candidate with
  | some c => exact ⟨[], by simp [onicecandidate], rfl⟩
  | none =>
    cases h : btoa (JSON.stringify w.pc.localDescription) with
    | error e =>
      rw [onicecandidate_null_error w e h]
      exact ⟨_, rfl, rfl⟩
    | ok b =>
      rw [onicecandidate_null_ok w b h]
      exact ⟨_, rfl, rfl⟩

/-- Every event only appends to the trace; it never appends a media request, and
unless it is a null-candidate event it neither appends a write to the output
field nor changes that field. -/
theorem step_effects (w : World) (e : Event) :
    ∃ new, (step w e).trace = w.trace ++ new ∧ mediaRequests new = [] ∧
      (e.isGatheringComplete = false → outputWrites new = [] ∧
        (step w e).localSessionDescription = w.localSessionDescription) := by
  have weaken : ∀ w' : World, (∃ new, w'.trace = w.trace ++ new ∧ mediaRequests new = [] ∧
      outputWrites new = [] ∧ w'.localSessionDescription = w.localSessionDescription) →
      ∃ new, w'.trace = w.trace ++ new ∧ mediaRequests new = [] ∧
        (e.isGatheringComplete = false → outputWrites new = [] ∧
          w'.localSessionDescription = w.localSessionDescription) := by
    rintro w' ⟨new, h1, h2, h3, h4⟩
    exact ⟨new, h1, h2, fun _ => ⟨h3, h4⟩⟩
  have same : ∃ new, w.trace = w.trace ++ new ∧ mediaRequests new = [] ∧
      outputWrites new = [] ∧ w.localSessionDescription = w.localSessionDescription :=
    ⟨[], by simp, rfl, rfl, rfl⟩
  cases e with
  | mediaSettled media =>
    apply weaken
    unfold step
    cases w.initState <;> first | exact initAfterMedia_effects media w | exact same
  | offerSettled offer =>
    apply weaken
    unfold step
    cases w.initState <;> first | exact initAfterOffer_effects offer w | exact same
  | setLocalSettled failure =>
    apply weaken
    unfold step
    cases w.initState <;> first | exact initAfterSetLocal_effects _ failure w | exact same
  | localDescriptionChanged d =>
    apply weaken
    exact ⟨[], by simp [step], rfl, rfl, rfl⟩
  | track streams =>
    apply weaken
    exact ⟨[.logsAppend (.text (js "收到远程流")), .video2Set streams.head?],
      by simp [step, ontrack, log], rfl, rfl, rfl⟩
  | iceConnectionStateChange s =>
    apply weaken
    exact ⟨[.logsAppend (.text (js "ICE 状态: " ++ s.toJSString))], rfl, rfl, rfl, rfl⟩
  | iceCandidate candidate =>
    cases candidate with
    | some c => exact ⟨[], by simp [step, onicecandidate], rfl, fun _ => ⟨rfl, rfl⟩⟩
    | none =>
      obtain ⟨new, h1, h2⟩ := onicecandidate_media none w
      exact ⟨new, h1, h2, fun h => by simp [Event.isGatheringComplete] at h⟩
  | input text =>
    apply weaken
    exact ⟨[], by simp [step], rfl, rfl, rfl⟩
  | startSession =>
    apply weaken
    exact startSession_effects w
  | remoteSettled rejection =>
    apply weaken
    exact remoteDescriptionSettled_effects rejection w

theorem run_cons (w : World) (e : Event) (events : List Event) :
    run w (e :: events) = run (step w e) events := rfl

/-- No sequence of events adds a media request. -/
theorem run_mediaRequests : ∀ (events : List Event) (w : World),
    mediaRequests (run w events).trace = mediaRequests w.trace
  | [], _ => rfl
  | e :: events, w => by
    obtain ⟨new, h1, h2, _⟩ := step_effects w e
    rw [run_cons, run_mediaRequests events (step w e), h1, mediaRequests_append, h2]
    simp

/-- A sequence of events without a null-candidate event leaves the output field
as it is and adds no write to it. -/
theorem run_output : ∀ (events : List Event) (w : World),
    (∀ e ∈ events, e.isGatheringComplete = false) →
    (run w events).localSessionDescription = w.localSessionDescription ∧
      outputWrites (run w events).trace = outputWrites w.trace
  | [], _, _ => ⟨rfl, rfl⟩
  | e :: events, w, h => by
    obtain ⟨new, h1, _, h3⟩ := step_effects w e
    obtain ⟨h4, h5⟩ := h3 (h e (by simp))
    obtain ⟨h6, h7⟩ := run_output events (step w e) (fun x hx => h x (by simp [hx]))
    rw [run_cons, h6, h7, h5, h1, outputWrites_append, h4]
    simp

/-! ## The claims -/

/-- C1: with the empty string in the input field, `startSession` shows the alert
'Session Description must not be empty' and does nothing else, whatever the state
of the connection: it calls neither `atob` nor `JSON.parse` nor
`pc.setRemoteDescription`, and the remote description is as before. -/
theorem startSession_empty_input (w : World) (h : w.remoteSessionDescription = []) :
    startSession w
        = { w with
            trace := w.trace ++ [.alert (.text (js "Session Description must not be empty"))] } ∧
      alerts (startSession w).trace
        = alerts w.trace ++ [.text (js "Session Description must not be empty")] ∧
      decodings (startSession w).trace = decodings w.trace ∧
      remoteCalls (startSession w).trace = remoteCalls w.trace ∧
      (startSession w).pendingRemote = w.pendingRemote ∧
      (startSession w).pc.remoteDescription = w.pc.remoteDescription := by
  have hs := startSession_empty w h
  refine ⟨hs, ?_, ?_, ?_, ?_, ?_⟩
  · rw [hs, alerts_append]; rfl
  · rw [hs, decodings_append]; simp [decodings, Effect.isDecoding]
  · rw [hs, remoteCalls_append]; simp [remoteCalls, Effect.remoteCall?]
  · rw [hs]
  · rw [hs]

/-- C1 at the freshly loaded page, whose input field is empty and whose remote
description is unset. -/
theorem startSession_empty_input_witness :
    (load 0).remoteSessionDescription = [] ∧
      (startSession (load 0)).pc.remoteDescription = none ∧
      (startSession (load 0)).pendingRemote = [] :=
  ⟨rfl, (startSession_empty_input (load 0) rfl).2.2.2.2.2,
    (startSession_empty_input (load 0) rfl).2.2.2.2.1⟩

/-- C2: on a non-empty input on which `atob` throws, or whose decoded text
`JSON.parse` rejects, `startSession` shows the thrown error through `alert` once,
does not call `pc.setRemoteDescription`, and leaves the connection, with its
remote description, as it was. -/
theorem startSession_undecodable_input (w : World) (e : JSError)
    (hne : w.remoteSessionDescription ≠ [])
    (hfail : decode w.remoteSessionDescription = .error e) :
    alerts (startSession w).trace = alerts w.trace ++ [.error e] ∧
      remoteCalls (startSession w).trace = remoteCalls w.trace ∧
      (startSession w).pendingRemote = w.pendingRemote ∧
      (startSession w).pc = w.pc ∧
      (startSession w).uncaught = w.uncaught := by
  rcases decode_error _ e hfail with ha | ⟨text, ha, hp⟩
  · rw [startSession_atob_error w e hne ha]
    refine ⟨?_, ?_, rfl, rfl, rfl⟩
    · rw [alerts_append]; rfl
    · rw [remoteCalls_append]; simp [remoteCalls, Effect.remoteCall?]
  · rw [startSession_parse_error w text e hne ha hp]
    refine ⟨?_, ?_, rfl, rfl, rfl⟩
    · rw [alerts_append]; rfl
    · rw [remoteCalls_append]; simp [remoteCalls, Effect.remoteCall?]

/-- C2 at the input `not-valid-base64!!`, on which `atob` throws, and at
`bm90IGpzb24=`, which decodes to the text `not json`. -/
theorem startSession_undecodable_input_witness :
    (decode (js "not-valid-base64!!") = .error invalidCharacterError ∧
        alerts (startSession (pageWithInput (js "not-valid-base64!!"))).trace
          = alerts (pageWithInput (js "not-valid-base64!!")).trace
            ++ [.error invalidCharacterError] ∧
        (startSession (pageWithInput (js "not-valid-base64!!"))).pc.remoteDescription = none) ∧
      (atob (js "bm90IGpzb24=") = .ok (js "not json") ∧
        decode (js "bm90IGpzb24=") = .error syntaxError ∧
        alerts (startSession (pageWithInput (js "bm90IGpzb24="))).trace
          = alerts (pageWithInput (js "bm90IGpzb24=")).trace ++ [.error syntaxError] ∧
        (startSession (pageWithInput (js "bm90IGpzb24="))).pc.remoteDescription = none) :=
  have h1 := startSession_undecodable_input (pageWithInput (js "not-valid-base64!!"))
    invalidCharacterError (by decide) rfl
  have h2 := startSession_undecodable_input (pageWithInput (js "bm90IGpzb24="))
    syntaxError (by decide) rfl
  ⟨⟨rfl, h1.1, by rw [h1.2.2.2.1]; rfl⟩, ⟨rfl, rfl, h2.1, by rw [h2.2.2.2.1]; rfl⟩⟩

/-- C3, refuted as stated: the blob `MTIz` decodes to the JSON value `123`, which
is no session description, and `startSession` hands it to
`pc.setRemoteDescription` and shows no alert; so it does for `e30=`, the blob of
the empty object. -/
theorem startSession_unshaped_counterexample :
    decode (js "MTIz") = .ok (.number (js "123")) ∧
      (startSession (pageWithInput (js "MTIz"))).trace
        = (pageWithInput (js "MTIz")).trace ++
          [.atob (js "MTIz"), .jsonParse (js "123"), .setRemoteDescription (.number (js "123"))] ∧
      remoteCalls (startSession (pageWithInput (js "MTIz"))).trace = [.number (js "123")] ∧
      alerts (startSession (pageWithInput (js "MTIz"))).trace = [] ∧
      decode (js "e30=") = .ok (.object []) ∧
      remoteCalls (startSession (pageWithInput (js "e30="))).trace = [.object []] ∧
      alerts (startSession (pageWithInput (js "e30="))).trace = [] := by
  have t1 : (startSession (pageWithInput (js "MTIz"))).trace
      = [mediaPromise 0, .atob (js "MTIz"), .jsonParse (js "123"),
        .setRemoteDescription (.number (js "123"))] := rfl
  have t2 : (startSession (pageWithInput (js "e30="))).trace
      = [mediaPromise 0, .atob (js "e30="), .jsonParse (js "\x7b\x7d"),
        .setRemoteDescription (.object [])] := rfl
  refine ⟨rfl, rfl, ?_, ?_, rfl, ?_, ?_⟩
  · rw [t1, mediaPromise_zero]; rfl
  · rw [t1, mediaPromise_zero]; rfl
  · rw [t2, mediaPromise_zero]; rfl
  · rw [t2, mediaPromise_zero]; rfl

/-- C3, amended: on a non-empty input that decodes and parses to a value,
whatever its shape, `startSession` shows no alert and calls
`pc.setRemoteDescription` once with that value, leaving the connection as it was;
if the connection then rejects the value, the rejection is logged and the remote
description stays as it was. -/
theorem startSession_decodable_input (w : World) (v : JSValue)
    (hne : w.remoteSessionDescription ≠ [])
    (hok : decode w.remoteSessionDescription = .ok v) :
    alerts (startSession w).trace = alerts w.trace ∧
      remoteCalls (startSession w).trace = remoteCalls w.trace ++ [v] ∧
      (startSession w).pendingRemote = w.pendingRemote ++ [v] ∧
      (startSession w).pc = w.pc ∧
      ∀ err, w.pendingRemote = [] →
        (remoteDescriptionSettled (some err) (startSession w)).pc = w.pc ∧
        (remoteDescriptionSettled (some err) (startSession w)).logs
          = w.logs ++ [.error err] ∧
        alerts (remoteDescriptionSettled (some err) (startSession w)).trace
          = alerts w.trace := by
  obtain ⟨text, ha, hp⟩ := decode_ok _ v hok
  rw [startSession_ok w text v hne ha hp]
  refine ⟨?_, ?_, rfl, rfl, ?_⟩
  · rw [alerts_append]; simp [alerts, Effect.alert?]
  · rw [remoteCalls_append]; simp [remoteCalls, Effect.remoteCall?]
  · intro err hp0
    simp [remoteDescriptionSettled, hp0, log, alerts, Effect.alert?]

/-- C3 amended, at the blob `MTIz` of the JSON value `123`. -/
theorem startSession_decodable_input_witness :
    (pageWithInput (js "MTIz")).remoteSessionDescription ≠ [] ∧
      decode (pageWithInput (js "MTIz")).remoteSessionDescription = .ok (.number (js "123")) ∧
      (startSession (pageWithInput (js "MTIz"))).pendingRemote = [.number (js "123")] :=
  ⟨by decide, rfl,
    (startSession_decodable_input (pageWithInput (js "MTIz")) (.number (js "123"))
      (by decide) rfl).2.2.1⟩

/-- C4: when the input field holds the blob `btoa(JSON.stringify(d))` of a
session description `d`, `startSession` calls `pc.setRemoteDescription` once, with
`JSON.parse(atob(blob))`, which is the object of `d`, and shows no alert; when the
connection accepts it, the remote description becomes that object. -/
theorem startSession_valid_blob (w : World) (d : SessionDescription) (blob : JSString)
    (hblob : btoa (JSON.stringify (some d)) = .ok blob)
    (hin : w.remoteSessionDescription = blob) :
    decode blob = .ok d.toJSValue ∧
      remoteCalls (startSession w).trace = remoteCalls w.trace ++ [d.toJSValue] ∧
      alerts (startSession w).trace = alerts w.trace ∧
      (w.pendingRemote = [] →
        (remoteDescriptionSettled none (startSession w)).pc.remoteDescription
          = some d.toJSValue) := by
  obtain ⟨hne, ha, hd⟩ := decode_blob d blob hblob
  subst hin
  rw [startSession_ok w _ d.toJSValue hne ha (parse_stringify d)]
  refine ⟨hd, ?_, ?_, ?_⟩
  · rw [remoteCalls_append]; simp [remoteCalls, Effect.remoteCall?]
  · rw [alerts_append]; simp [alerts, Effect.alert?]
  · intro hp0
    simp [remoteDescriptionSettled, hp0]

/-- C4 at the blob of a small answer, pasted into a freshly loaded page. -/
theorem startSession_valid_blob_witness :
    btoa (JSON.stringify (some sampleAnswer)) = .ok sampleAnswerBlob ∧
      (pageWithInput sampleAnswerBlob).remoteSessionDescription = sampleAnswerBlob ∧
      (remoteDescriptionSettled none (startSession (pageWithInput sampleAnswerBlob))).pc.remoteDescription
        = some sampleAnswer.toJSValue := by
  have hblob : btoa (JSON.stringify (some sampleAnswer)) = .ok sampleAnswerBlob := rfl
  have hin : (pageWithInput sampleAnswerBlob).remoteSessionDescription = sampleAnswerBlob := rfl
  exact ⟨hblob, hin,
    (startSession_valid_blob (pageWithInput sampleAnswerBlob) sampleAnswer sampleAnswerBlob
      hblob hin).2.2.2 rfl⟩

/-- C5: the output field `localSessionDescription` is written only by a
null-candidate event. A sequence of events without one (settlements of `init`,
track and state-change events, edits of the input, `startSession`, settlements
of `setRemoteDescription`, candidate events with a candidate) leaves the field as
it is and adds no write to it; so do `init` run as a whole and `log`; and on a
null-candidate event the value written is `btoa(JSON.stringify(pc.localDescription))`,
or nothing when `btoa` throws. -/
theorem output_written_only_on_null_candidate (w : World) (events : List Event)
    (h : ∀ e ∈ events, e.isGatheringComplete = false) :
    ((run w events).localSessionDescription = w.localSessionDescription ∧
        outputWrites (run w events).trace = outputWrites w.trace) ∧
      (∀ c, onicecandidate (some c) w = w) ∧
      (∀ media offer failure,
        (init media offer failure w).localSessionDescription = w.localSessionDescription ∧
        outputWrites (init media offer failure w).trace = outputWrites w.trace) ∧
      (∀ msg, (log msg w).localSessionDescription = w.localSessionDescription ∧
        outputWrites (log msg w).trace = outputWrites w.trace) ∧
      (∀ b, btoa (JSON.stringify w.pc.localDescription) = .ok b →
        (onicecandidate none w).localSessionDescription = b ∧
        outputWrites (onicecandidate none w).trace = outputWrites w.trace ++ [b]) ∧
      (∀ e, btoa (JSON.stringify w.pc.localDescription) = .error e →
        (onicecandidate none w).localSessionDescription = w.localSessionDescription ∧
        outputWrites (onicecandidate none w).trace = outputWrites w.trace) := by
  refine ⟨run_output events w h, fun c => rfl, ?_, ?_, ?_, ?_⟩
  · intro media offer failure
    have key : init media offer failure w
        = run { w with initState := .awaitMedia }
          [.mediaSettled media, .offerSettled offer, .setLocalSettled failure] := by
      cases media with
      | error err => rfl
      | ok stream =>
        cases offer with
        | error err => simp [init, run, step, initAfterMedia, initAfterOffer, log]
        | ok o => simp [init, run, step, initAfterMedia, initAfterOffer]
    rw [key]
    exact run_output _ { w with initState := .awaitMedia }
      (by simp [Event.isGatheringComplete])
  · intro msg
    refine ⟨rfl, ?_⟩
    rw [log_eq, outputWrites_append]
    simp [outputWrites, Effect.outputWrite?]
  · intro b hb
    rw [onicecandidate_null_ok w b hb]
    refine ⟨rfl, ?_⟩
    rw [outputWrites_append]
    simp [outputWrites, Effect.outputWrite?]
  · intro e he
    rw [onicecandidate_null_error w e he]
    refine ⟨rfl, ?_⟩
    rw [outputWrites_append]
    simp [outputWrites, Effect.outputWrite?]

/-- C5 on a whole session up to a candidate, without a null candidate: the
output field is still empty. -/
theorem output_written_only_on_null_candidate_witness :
    (run (load 0)
        [.mediaSettled (.ok sampleStream), .offerSettled (.ok sampleOffer),
          .setLocalSettled none, .iceConnectionStateChange .checking,
          .iceCandidate (some ⟨js "candidate:1"⟩), .input sampleAnswerBlob,
          .startSession, .remoteSettled none, .track [sampleStream]]).localSessionDescription
      = [] :=
  (output_written_only_on_null_candidate (load 0) _
    (by simp [Event.isGatheringComplete])).1.1

/-- C6, refuted as stated: two null-candidate events in one session write the
output field twice. -/
theorem gathering_complete_twice_counterexample :
    (run sessionWithOffer [.iceCandidate none, .iceCandidate none]).trace
        = sessionWithOffer.trace ++
          [.jsonStringify (some sampleOffer), .btoa (JSON.stringify (some sampleOffer)),
            .localSessionDescriptionSet (js "eyJ0eXBlIjoib2ZmZXIiLCJzZHAiOiJ2PTBcclxuIn0="),
            .jsonStringify (some sampleOffer), .btoa (JSON.stringify (some sampleOffer)),
            .localSessionDescriptionSet (js "eyJ0eXBlIjoib2ZmZXIiLCJzZHAiOiJ2PTBcclxuIn0=")] ∧
      (outputWrites (run sessionWithOffer [.iceCandidate none, .iceCandidate none]).trace).length
        = 2 := by
  have t : (run sessionWithOffer [.iceCandidate none, .iceCandidate none]).trace
      = [mediaPromise 0, .video1Set sampleStream, .addTrack ⟨10⟩ sampleStream,
          .addTrack ⟨11⟩ sampleStream, .createOffer, .setLocalDescription sampleOffer,
          .jsonStringify (some sampleOffer), .btoa (JSON.stringify (some sampleOffer)),
          .localSessionDescriptionSet (js "eyJ0eXBlIjoib2ZmZXIiLCJzZHAiOiJ2PTBcclxuIn0="),
          .jsonStringify (some sampleOffer), .btoa (JSON.stringify (some sampleOffer)),
          .localSessionDescriptionSet (js "eyJ0eXBlIjoib2ZmZXIiLCJzZHAiOiJ2PTBcclxuIn0=")] := rfl
  refine ⟨rfl, ?_⟩
  rw [t, mediaPromise_zero]
  rfl

theorem nullCandidates_cons_none (cs : List (Option IceCandidate)) :
    nullCandidates (none :: cs) = nullCandidates cs + 1 := by
  simp [nullCandidates]

theorem nullCandidates_cons_some (c : IceCandidate) (cs : List (Option IceCandidate)) :
    nullCandidates (some c :: cs) = nullCandidates cs := by
  simp [nullCandidates]

theorem run_candidateEvents_writes : ∀ (candidates : List (Option IceCandidate)) (w : World),
    (outputWrites (run w (candidateEvents candidates)).trace).length
        ≤ (outputWrites w.trace).length + nullCandidates candidates ∧
      ∀ b, btoa (JSON.stringify w.pc.localDescription) = .ok b →
        outputWrites (run w (candidateEvents candidates)).trace
          = outputWrites w.trace ++ List.replicate (nullCandidates candidates) b
  | [], w => by simp [candidateEvents, run, nullCandidates]
  | some c :: cs, w => by
    have ih := run_candidateEvents_writes cs w
    simp only [candidateEvents, List.map_cons, run_cons, nullCandidates_cons_some] at ih ⊢
    exact ih
  | none :: cs, w => by
    have ih := run_candidateEvents_writes cs (onicecandidate none w)
    simp only [candidateEvents, List.map_cons, run_cons, nullCandidates_cons_none] at ih ⊢
    have hstep : step w (.iceCandidate none) = onicecandidate none w := rfl
    rw [hstep]
    cases hb : btoa (JSON.stringify w.pc.localDescription) with
    | error e =>
      rw [onicecandidate_null_error w e hb] at ih ⊢
      constructor
      · have h1 := ih.1
        simp only [outputWrites_append] at h1
        simp only [outputWrites, List.filterMap_cons, Effect.outputWrite?, List.filterMap_nil,
          List.append_nil] at h1 ⊢
        omega
      · intro b hb'
        simp at hb'
    | ok b =>
      rw [onicecandidate_null_ok w b hb] at ih ⊢
      constructor
      · have h1 := ih.1
        simp only [outputWrites_append] at h1
        simp only [outputWrites, List.filterMap_cons, Effect.outputWrite?, List.filterMap_nil,
          List.length_append, List.length_cons, List.length_nil] at h1 ⊢
        omega
      · intro b' hb'
        have hbb : b = b' := by simpa using hb'
        subst hbb
        have h2 := ih.2 b hb
        rw [h2, outputWrites_append]
        simp [outputWrites, Effect.outputWrite?, List.replicate_succ]

/-- C6, amended: the handler writes the output field once for each null-candidate
event it is given, with no guard against a second one: over any sequence of
candidate events the number of writes is at most the number of null candidates
among them, so at most one when at most one null candidate is delivered, and
when `btoa` accepts the serialized local description it is written exactly once
per null candidate. -/
theorem output_written_once_per_null_candidate (w : World)
    (candidates : List (Option IceCandidate)) :
    (outputWrites (run w (candidateEvents candidates)).trace).length
        ≤ (outputWrites w.trace).length + nullCandidates candidates ∧
      (nullCandidates candidates ≤ 1 →
        (outputWrites (run w (candidateEvents candidates)).trace).length
          ≤ (outputWrites w.trace).length + 1) ∧
      ∀ b, btoa (JSON.stringify w.pc.localDescription) = .ok b →
        outputWrites (run w (candidateEvents candidates)).trace
          = outputWrites w.trace ++ List.replicate (nullCandidates candidates) b := by
  obtain ⟨h1, h2⟩ := run_candidateEvents_writes candidates w
  exact ⟨h1, fun h => by omega, h2⟩

/-- C7: whatever value the random source returns, the script makes exactly one
media request, on loading and never again: `getDisplayMedia` when the value is
above 0.5 and `getUserMedia` otherwise, each asking for both video and audio. -/
theorem one_media_request (random : ℚ) :
    (load random).trace = [mediaPromise random] ∧
      (random > 0.5 →
        mediaPromise random = .getDisplayMedia { video := true, audio := true }) ∧
      (¬ random > 0.5 →
        mediaPromise random = .getUserMedia { video := true, audio := true }) ∧
      (∀ events, mediaRequests (run (load random) events).trace = [mediaPromise random]) ∧
      (∀ events, (mediaRequests (run (load random) events).trace).length = 1) := by
  have hreq : mediaRequests [mediaPromise random] = [mediaPromise random] := by
    unfold mediaPromise
    split_ifs <;> rfl
  have hrun : ∀ events, mediaRequests (run (load random) events).trace = [mediaPromise random] := by
    intro events
    rw [run_mediaRequests events (load random)]
    exact hreq
  refine ⟨rfl, ?_, ?_, hrun, ?_⟩
  · intro h
    simp [mediaPromise, h]
  · intro h
    simp [mediaPromise, h]
  · intro events
    rw [hrun events]
    rfl

/-- C8: `init` catches whatever its awaited steps throw, logs it once, and runs no
later step. A failed media request adds no track and calls neither `createOffer`
nor `setLocalDescription`; a failed `createOffer` is not followed by
`setLocalDescription`; in each case nothing is left uncaught. On success every
track of the stream is added, with the stream, before `createOffer` is called,
the offer created is the one set, and nothing is logged. -/
theorem init_reports_failure_once (w : World) (stream : MediaStream)
    (o : SessionDescription) (e : JSError) (offer : Except JSError SessionDescription)
    (failure : Option JSError) :
    init (.error e) offer failure w
        = { w with
            initState := .finished
            logs := w.logs ++ [.error e]
            trace := w.trace ++ [.logsAppend (.error e)] } ∧
      init (.ok stream) (.error e) failure w
        = { w with
            initState := .finished
            video1 := some stream
            logs := w.logs ++ [.error e]
            trace := w.trace ++ [.video1Set stream]
              ++ stream.tracks.map (fun track => Effect.addTrack track stream)
              ++ [.createOffer, .logsAppend (.error e)] } ∧
      init (.ok stream) (.ok o) (some e) w
        = { w with
            initState := .finished
            video1 := some stream
            logs := w.logs ++ [.error e]
            trace := w.trace ++ [.video1Set stream]
              ++ stream.tracks.map (fun track => Effect.addTrack track stream)
              ++ [.createOffer, .setLocalDescription o, .logsAppend (.error e)] } ∧
      init (.ok stream) (.ok o) none w
        = { w with
            initState := .finished
            video1 := some stream
            pc := { w.pc with localDescription := some o }
            trace := w.trace ++ [.video1Set stream]
              ++ stream.tracks.map (fun track => Effect.addTrack track stream)
              ++ [.createOffer, .setLocalDescription o] } := by
  refine ⟨rfl, ?_, ?_, ?_⟩
  · simp [init, initAfterMedia, initAfterOffer, addTracks_eq, log]
  · simp [init, initAfterMedia, initAfterOffer, initAfterSetLocal, addTracks_eq, log]
  · simp [init, initAfterMedia, initAfterOffer, initAfterSetLocal, addTracks_eq]

/-- C9, refuted as stated: pasting a valid blob and starting the session twice
calls `pc.setRemoteDescription` twice. -/
theorem accept_twice_counterexample :
    decode sampleAnswerBlob = .ok sampleAnswer.toJSValue ∧
      (run (load 0) (acceptAll [sampleAnswerBlob, sampleAnswerBlob])).trace
        = (load 0).trace ++
          [.atob sampleAnswerBlob, .jsonParse (JSON.stringify (some sampleAnswer)),
            .setRemoteDescription sampleAnswer.toJSValue,
            .atob sampleAnswerBlob, .jsonParse (JSON.stringify (some sampleAnswer)),
            .setRemoteDescription sampleAnswer.toJSValue] ∧
      remoteCalls (run (load 0) (acceptAll [sampleAnswerBlob, sampleAnswerBlob])).trace
        = [sampleAnswer.toJSValue, sampleAnswer.toJSValue] := by
  have t : (run (load 0) (acceptAll [sampleAnswerBlob, sampleAnswerBlob])).trace
      = [mediaPromise 0, .atob sampleAnswerBlob, .jsonParse (JSON.stringify (some sampleAnswer)),
          .setRemoteDescription sampleAnswer.toJSValue,
          .atob sampleAnswerBlob, .jsonParse (JSON.stringify (some sampleAnswer)),
          .setRemoteDescription sampleAnswer.toJSValue] := rfl
  refine ⟨rfl, rfl, ?_⟩
  rw [t, mediaPromise_zero]
  rfl

theorem run_acceptAll_remoteCalls : ∀ (blobs : List JSString) (w : World),
    (∀ blob ∈ blobs, blob ≠ [] ∧ ∃ v, decode blob = .ok v) →
    (remoteCalls (run w (acceptAll blobs)).trace).length
        = (remoteCalls w.trace).length + blobs.length ∧
      alerts (run w (acceptAll blobs)).trace = alerts w.trace
  | [], _, _ => ⟨rfl, rfl⟩
  | blob :: blobs, w, h => by
    obtain ⟨hne, v, hv⟩ := h blob (by simp)
    obtain ⟨text, ha, hp⟩ := decode_ok blob v hv
    have hstep : run w (acceptAll (blob :: blobs))
        = run (startSession { w with remoteSessionDescription := blob }) (acceptAll blobs) := rfl
    obtain ⟨ih1, ih2⟩ := run_acceptAll_remoteCalls blobs
      (startSession { w with remoteSessionDescription := blob })
      (fun b hb => h b (by simp [hb]))
    rw [hstep, ih1, ih2,
      startSession_ok { w with remoteSessionDescription := blob } text v hne ha hp]
    simp only [remoteCalls_append, alerts_append]
    simp [remoteCalls, alerts, Effect.remoteCall?, Effect.alert?]
    omega

/-- C9, amended: nothing limits the session to one remote description. Each
`startSession` on a valid blob calls `pc.setRemoteDescription` once more, so a
sequence of them calls it as many times as there are blobs, without any alert;
what a second call does is left to the connection. -/
theorem one_remote_call_per_valid_blob (w : World) (blobs : List JSString)
    (h : ∀ blob ∈ blobs, blob ≠ [] ∧ ∃ v, decode blob = .ok v) :
    (remoteCalls (run w (acceptAll blobs)).trace).length
        = (remoteCalls w.trace).length + blobs.length ∧
      alerts (run w (acceptAll blobs)).trace = alerts w.trace :=
  run_acceptAll_remoteCalls blobs w h

/-- C9 amended, at three pastes of the blob of a small answer. -/
theorem one_remote_call_per_valid_blob_witness :
    (∀ blob ∈ [sampleAnswerBlob, sampleAnswerBlob, sampleAnswerBlob],
        blob ≠ [] ∧ ∃ v, decode blob = .ok v) ∧
      (remoteCalls (run sessionWithOffer
          (acceptAll [sampleAnswerBlob, sampleAnswerBlob, sampleAnswerBlob])).trace).length
        = (remoteCalls sessionWithOffer.trace).length + 3 := by
  have hv : ∀ blob ∈ [sampleAnswerBlob, sampleAnswerBlob, sampleAnswerBlob],
      blob ≠ [] ∧ ∃ v, decode blob = .ok v := by
    intro blob hb
    have hb' : blob = sampleAnswerBlob := by simpa using hb
    subst hb'
    exact ⟨by decide, sampleAnswer.toJSValue, rfl⟩
  exact ⟨hv, (one_remote_call_per_valid_blob sessionWithOffer _ hv).1⟩

/-- C10: for a session description whose JSON text has only code units up to 255,
`btoa` gives a non-empty blob, `JSON.parse(atob(blob))` is the object with the
same `type` and `sdp`, the blob is what `pc.onicecandidate` exposes when the
description is the local one, and `startSession` on it shows no alert and hands
the object to `pc.setRemoteDescription`. -/
theorem blob_round_trip (d : SessionDescription)
    (h : ∀ c ∈ JSON.stringify (some d), c ≤ 255) :
    ∃ blob, btoa (JSON.stringify (some d)) = .ok blob ∧ blob ≠ [] ∧
      atob blob = .ok (JSON.stringify (some d)) ∧
      decode blob = .ok d.toJSValue ∧
      d.toJSValue.get (js "type") = some (.string d.type) ∧
      d.toJSValue.get (js "sdp") = some (.string d.sdp) ∧
      (∀ w : World, w.pc.localDescription = some d →
        (onicecandidate none w).localSessionDescription = blob) ∧
      (∀ w : World, w.remoteSessionDescription = blob →
        alerts (startSession w).trace = alerts w.trace ∧
        remoteCalls (startSession w).trace = remoteCalls w.trace ++ [d.toJSValue]) := by
  obtain ⟨hb, ha⟩ := atob_btoa _ h
  obtain ⟨hne, _, hd⟩ := decode_blob d _ hb
  refine ⟨_, hb, hne, ha, hd, toJSValue_get_type d, toJSValue_get_sdp d, ?_, ?_⟩
  · intro w hw
    rw [onicecandidate_null_ok w _ (by rw [hw]; exact hb)]
  · intro w hw
    rw [startSession_ok w _ d.toJSValue (by rw [hw]; exact hne) (by rw [hw]; exact ha)
      (parse_stringify d)]
    simp only [remoteCalls_append, alerts_append]
    simp [remoteCalls, alerts, Effect.remoteCall?, Effect.alert?]

/-- C10 at a small offer: its blob, as exposed by the offering peer, is accepted
by `startSession` without an alert. -/
theorem blob_round_trip_witness :
    (∀ c ∈ JSON.stringify (some sampleOffer), c ≤ 255) ∧
      ∃ blob, btoa (JSON.stringify (some sampleOffer)) = .ok blob ∧ blob ≠ [] ∧
        decode blob = .ok sampleOffer.toJSValue := by
  have hl : ∀ c ∈ JSON.stringify (some sampleOffer), c ≤ 255 := by decide
  obtain ⟨blob, h1, h2, _, h4, _⟩ := blob_round_trip sampleOffer hl
  exact ⟨hl, blob, h1, h2, h4⟩

end SaveToWebm
